import Mathlib

/-! dockerrmi: image resolution and teardown

A shallow embedding of the two entry points of `dockerrmi`
(`cmd/root.go`, package `cmd`, and `main.go`, package `main`) and the
properties of its resolution and teardown logic.

Go strings are byte sequences; they are embedded as lists of characters, one
character per byte.  Every operation the program applies to them (equality,
concatenation, slicing, `strings.Index`, `strings.Split`,
`strings.HasPrefix`) is generic in the alphabet.
-/

set_option autoImplicit false

/-- A Go `string`. -/
abbrev Str := List Char

/-! ## The `strings` package, as far as the program uses it -/

namespace strings

/-- The call `strings.Index(s, sep)` for a one-byte separator (every call site
passes `":"`): the position of the first `sep` in `s`, or `-1`. -/
def Index : Str → Char → Int
  | [], _ => -1
  | c :: cs, sep =>
    if c = sep then 0
    else if Index cs sep < 0 then -1 else Index cs sep + 1

/-- The call `strings.Split(s, sep)` for a one-byte separator (every call site
passes `":"`, `"|"` or `" "`): the substrings between the separators, one more
than there are separators. -/
def Split : Str → Char → List Str
  | [], _ => [[]]
  | c :: cs, sep =>
    if c = sep then [] :: Split cs sep
    else
      match Split cs sep with
      | [] => [[c]]
      | p :: ps => (c :: p) :: ps

/-- The call `strings.HasPrefix(s, p)`. -/
def HasPrefix (s p : Str) : Bool := p.isPrefixOf s

end strings

/-! ## Data model (identical in both packages) -/

/-- The struct `DockerImage`. -/
structure DockerImage where
  Repo : Str
  Tag : Str
  ID : Str
deriving DecidableEq, Repr

/-- The struct `DockerContainer`. -/
structure DockerContainer where
  ID : Str
  ImageRepo : Str
  ImageTag : Str
deriving DecidableEq, Repr

/-! ## The outside world

Every mutating action and every query is `exec.Command("sh", "-c", cmd).Output()`.
The world in which the shell runs is an explicit state; what the program does
to it and what it prints is recorded as a list of events. -/

/-- What `Output()` returns: the captured standard output and the error, if any
(its `Error()` text). -/
structure Output where
  stdout : Str
  err : Option Str

/-- The shell: running a command in a world gives its output and the next world. -/
structure Shell (W : Type) where
  exec : Str → W → Output × W

/-- What the program does that is visible from outside. -/
inductive Event where
  /-- The shell command `sh -c cmd` was run. -/
  | exec (cmd : Str)
  /-- Text written to `os.Stdout`. -/
  | stdout (text : Str)
  /-- Text written to `os.Stderr`. -/
  | stderr (text : Str)
deriving DecidableEq, Repr

/-- The shell commands among the events, in the order they were run. -/
def commands : List Event → List Str
  | [] => []
  | Event.exec cmd :: es => cmd :: commands es
  | _ :: es => commands es

/-! ## The `bufio` package, as far as the program uses it -/

namespace bufio

/-- The constant `bufio.MaxScanTokenSize`. -/
def MaxScanTokenSize : Nat := 64 * 1024

/-- The function `dropCR` of `bufio`: drops one trailing `\r`. -/
def dropCR (data : Str) : Str :=
  if data.getLast? = some '\r' then data.dropLast else data

/-- The loop `for scanner.Scan() { ... scanner.Text() ... }` over a
`bufio.NewScanner(strings.NewReader(text))` with the default split function
`ScanLines`: `cur` is the part of the current line read so far.  The result is
the tokens, and whether the scanner stopped with `ErrTooLong` (a line that
fills the whole buffer of `MaxScanTokenSize` bytes without a newline). -/
def scanLoop : Str → Str → List Str × Bool
  | cur, [] => (if cur = [] then [] else [dropCR cur], false)
  | cur, c :: rest =>
    if c = '\n' then (dropCR cur :: (scanLoop [] rest).1, (scanLoop [] rest).2)
    else if cur.length + 1 ≥ MaxScanTokenSize then ([], true)
    else scanLoop (cur ++ [c]) rest

/-- The successive values of `scanner.Text()`. -/
def Lines (text : Str) : List Str := (scanLoop [] text).1

end bufio

/-! ## Code shared by both packages -/

/-- The loop `for _, x := range xs { if p(x) { acc = append(acc, x) } }`, used by
`getImage` (both packages) and by `getRunningContainers`. -/
def appendWhere {α : Type} (p : α → Bool) : List α → List α → List α
  | acc, [] => acc
  | acc, x :: xs => if p x then appendWhere p (acc ++ [x]) xs else appendWhere p acc xs

/-- The condition of the `if` in `getImage` (both packages):
`(img.Repo == repo && img.Tag == tag) || (imageID != "" && strings.HasPrefix(img.ID, imageID))`. -/
def imageMatches (repo tag imageID : Str) (img : DockerImage) : Bool :=
  (img.Repo == repo && img.Tag == tag) || (imageID != [] && strings.HasPrefix img.ID imageID)

/-- The condition of the `if` in `getRunningContainers`, `removeContainers` and
`stopContainers`: `c.ImageRepo == image.Repo && c.ImageTag == image.Tag`. -/
def usesImage (image : DockerImage) (c : DockerContainer) : Bool :=
  c.ImageRepo == image.Repo && c.ImageTag == image.Tag

/-- The local variables `imageRepo`, `imageTag`, `imageID` of the argument loop. -/
structure Query where
  imageRepo : Str
  imageTag : Str
  imageID : Str
deriving DecidableEq, Repr

/-- The argument of `docker rmi` in `removeImage` (both packages): the ID if it
is not empty, `fmt.Sprintf("%s:%s", repo, tag)` otherwise. -/
def rmiTarget (di : DockerImage) : Str :=
  if di.ID ≠ [] then di.ID else di.Repo ++ ":".toList ++ di.Tag

/-- The loop of `getAllImages` (both packages) over the lines of the captured
output, as a function of `outputBytes`: a line that does not split into exactly
three parts at `":"` is skipped. -/
def getAllImages (outputBytes : Str) : List DockerImage :=
  (bufio.Lines outputBytes).filterMap (fun text =>
    match strings.Split text ':' with
    | [id, repo, tag] => some { ID := id, Repo := repo, Tag := tag }
    | _ => none)

/-! ## `cmd/root.go` -/

namespace RootGo

/-- The package-level variables of `cmd/root.go`. -/
structure Vars where
  allImages : List DockerImage
  allContainers : List DockerContainer
  runningContainers : List DockerContainer
  stopRunningContainers : Bool
  printVersion : Bool

/-- The function `pErrorln` with one operand: `fmt.Fprintln(os.Stderr, "[Error]", a)`. -/
def pErrorln (a : Str) : Event := .stderr ("[Error] ".toList ++ a ++ "\n".toList)

/-- The function `pInfoln` with one operand: `fmt.Fprintln(os.Stdout, "[Info]", a)`. -/
def pInfoln (a : Str) : Event := .stdout ("[Info] ".toList ++ a ++ "\n".toList)

/-- The function `pErrorf`, applied to the formatted text. -/
def pErrorf (text : Str) : Event := .stderr ("[Error] ".toList ++ text)

/-- The function `pInfof`, applied to the formatted text. -/
def pInfof (text : Str) : Event := .stdout ("[Info] ".toList ++ text)

/-- The text `fmt.Sprintf("\tid: %s, repo: %s, tag:%s\n", img.ID, img.Repo, img.Tag)`
written per image into the error of `getImage`. -/
def foundLine (img : DockerImage) : Str :=
  "\tid: ".toList ++ img.ID ++ ", repo: ".toList ++ img.Repo ++ ", tag:".toList ++ img.Tag
    ++ "\n".toList

/-- The error text of `getImage` when more than one image was found. -/
def multipleImagesError (found : List DockerImage) : Str :=
  "multiple images found:".toList ++ (found.map foundLine).flatten

/-- The error text of `getImage` when no image was found. -/
def notFoundError (repo tag imageID : Str) : Str :=
  " image not found according to id: ".toList ++ imageID ++ ", repo: ".toList ++ repo
    ++ ", tag:".toList ++ tag ++ "\n".toList

/-- The function `getImage` of `cmd/root.go`; `allImages` is the package variable. -/
def getImage (allImages : List DockerImage) (repo tag imageID : Str) : Except Str DockerImage :=
  let found := appendWhere (imageMatches repo tag imageID) [] allImages
  if found.length > 1 then .error (multipleImagesError found)
  else if h : found.length = 0 then .error (notFoundError repo tag imageID)
  else
    have inBounds : 0 < found.length := Nat.pos_of_ne_zero h
    .ok found[0]

/-- The function `getRunningContainers`; `runningContainers` is the package variable. -/
def getRunningContainers (runningContainers : List DockerContainer) (image : DockerImage) :
    List DockerContainer :=
  appendWhere (usesImage image) [] runningContainers

/-- The function `stopC`. -/
def stopC {W : Type} (sh : Shell W) (containerID : Str) (w : W) : List Event × W :=
  let cmd := "docker stop ".toList ++ containerID
  let r := sh.exec cmd w
  match r.1.err with
  | some err =>
    ([.exec cmd, pErrorf ("failed to stop container, cmd:".toList ++ cmd ++ ", stdout:".toList
        ++ r.1.stdout ++ ", err:".toList ++ err ++ "\n".toList)], r.2)
  | none => ([.exec cmd, pInfof ("stopped container ".toList ++ containerID ++ "\n".toList)], r.2)

/-- The loop `for _, c := range r { stopC(c.ID) }` of `run`. -/
def stopAll {W : Type} (sh : Shell W) : List DockerContainer → W → List Event × W
  | [], w => ([], w)
  | c :: cs, w =>
    let r1 := stopC sh c.ID w
    let r2 := stopAll sh cs r1.2
    (r1.1 ++ r2.1, r2.2)

/-- The body of the `if` in the loop of `removeContainers`. -/
def removeC {W : Type} (sh : Shell W) (c : DockerContainer) (w : W) : List Event × W :=
  let cmd := "docker rm ".toList ++ c.ID
  let r := sh.exec cmd w
  match r.1.err with
  | some err =>
    ([.exec cmd, pErrorf ("failed to remove docker container, cmd:".toList ++ cmd
        ++ ", stdout:".toList ++ r.1.stdout ++ ", err:".toList ++ err ++ "\n".toList)], r.2)
  | none => ([.exec cmd, pInfof ("removed container ".toList ++ c.ID ++ "\n".toList)], r.2)

/-- The function `removeContainers`; `allContainers` is the package variable. -/
def removeContainers {W : Type} (sh : Shell W) (image : DockerImage) :
    List DockerContainer → W → List Event × W
  | [], w => ([], w)
  | c :: cs, w =>
    if usesImage image c then
      let r1 := removeC sh c w
      let r2 := removeContainers sh image cs r1.2
      (r1.1 ++ r2.1, r2.2)
    else removeContainers sh image cs w

/-- The function `removeImage`. -/
def removeImage {W : Type} (sh : Shell W) (di : DockerImage) (w : W) : List Event × W :=
  let image := rmiTarget di
  let cmd := "docker rmi ".toList ++ image
  let r := sh.exec cmd w
  match r.1.err with
  | some err =>
    ([.exec cmd, pErrorf ("failed to remove image, cmd:".toList ++ cmd ++ ", stdout:".toList
        ++ r.1.stdout ++ ", err:".toList ++ err ++ "\n".toList)], r.2)
  | none => ([.exec cmd, pInfof ("removed image ".toList ++ image ++ "\n".toList)], r.2)

/-- Lines 66 to 86 of `run`: the query made from one argument, and what is
printed while making it.  The branch that prints the format error does not
leave the loop body. -/
def parseArg (image : Str) : Query × List Event :=
  let index := strings.Index image ':'
  if index ≥ 0 then
    if index > 0 ∧ index < (image.length : Int) then
      let sepIndex := strings.Index image ':'
      ({ imageRepo := image.take sepIndex.toNat,
         imageTag := image.drop (sepIndex.toNat + 1),
         imageID := [] }, [])
    else
      ({ imageRepo := [], imageTag := [], imageID := [] },
        [pErrorln "invalid image format, must conform to \"repo:tag\"".toList])
  else
    ({ imageRepo := image, imageTag := "latest".toList, imageID := image }, [])

/-- Lines 91 to 106 of `run`: what is done about the running containers of `di`.
The boolean is `false` when the `continue` is taken. -/
def checkRunning {W : Type} (v : Vars) (sh : Shell W) (di : DockerImage) (w : W) :
    (List Event × W) × Bool :=
  let r := getRunningContainers v.runningContainers di
  if r.length ≠ 0 then
    if v.stopRunningContainers then (stopAll sh r w, true)
    else
      (([pInfoln "Running containers exist, please stop these containers manually:".toList]
          ++ r.map (fun c => pInfof ("\t".toList ++ c.ID ++ "\n".toList))
          ++ [pInfoln "or try again with \"-r\" flag".toList], w), false)
  else (([], w), true)

/-- The body of the loop `for _, image := range args` of `run`. -/
def processArg {W : Type} (v : Vars) (sh : Shell W) (image : Str) (w : W) : List Event × W :=
  let p := parseArg image
  match getImage v.allImages p.1.imageRepo p.1.imageTag p.1.imageID with
  | .error err =>
    (p.2 ++ [pInfof ("Please provide correct image information, ".toList ++ err ++ "\n".toList)], w)
  | .ok di =>
    let g := checkRunning v sh di w
    if g.2 then
      let rc := removeContainers sh di v.allContainers g.1.2
      let ri := removeImage sh di rc.2
      (p.2 ++ g.1.1 ++ rc.1 ++ ri.1, ri.2)
    else (p.2 ++ g.1.1, g.1.2)

/-- The loop `for _, image := range args` of `run`. -/
def runLoop {W : Type} (v : Vars) (sh : Shell W) : List Str → W → List Event × W
  | [], w => ([], w)
  | image :: rest, w =>
    let r1 := processArg v sh image w
    let r2 := runLoop v sh rest r1.2
    (r1.1 ++ r2.1, r2.2)

/-- The function `run`. -/
def run {W : Type} (v : Vars) (sh : Shell W) (args : List Str) (w : W) : List Event × W :=
  if v.printVersion then ([.stdout "dockerrmi 0.1\n".toList], w)
  else
    let e := if args.length = 0 then [pErrorln "you must specify at least one image".toList] else []
    let r := runLoop v sh args w
    (e ++ r.1, r.2)

/-- Lines 222 to 238 of `getContainers`: the `(imageRepo, imageTag)` of a
container from the parts of its image column. -/
def imageOfParts (allImages : List DockerImage) (imgParts : List Str) : Str × Str :=
  match imgParts with
  | [repo, tag] => (repo, tag)
  | [field] =>
    match getImage allImages [] [] field with
    | .ok img => (img.Repo, img.Tag)
    | .error _ =>
      match getImage allImages field "latest".toList [] with
      | .ok img => (img.Repo, img.Tag)
      | .error _ => ([], [])
  | _ => ([], [])

/-- The body of the scanner loop of `getContainers`: the container of one line
of `docker ps --format "ID|Image"`, or `none` where the loop takes `continue`. -/
def containerOfLine (allImages : List DockerImage) (text : Str) : Option DockerContainer :=
  match strings.Split text '|' with
  | [id, image] =>
    let it := imageOfParts allImages (strings.Split image ':')
    some { ID := id, ImageRepo := it.1, ImageTag := it.2 }
  | _ => none

/-- The scanner loop of `getContainers` (lines 208 to 249), as a function of
`outputBytes`. -/
def getContainers (allImages : List DockerImage) (outputBytes : Str) : List DockerContainer :=
  (bufio.Lines outputBytes).filterMap (containerOfLine allImages)

end RootGo

/-! ## `main.go`

The calls of the `zap` logger are left out: the events of this package are the
shell commands only. -/

namespace MainGo

/-- The error text of `getImage` when more than one image was found. -/
def multipleImagesError (repo tag imageID : Str) : Str :=
  "multiple images found according to id: ".toList ++ imageID ++ ", repo: ".toList ++ repo
    ++ ", tag:".toList ++ tag

/-- The error text of `getImage` when no image was found. -/
def notFoundError (repo tag imageID : Str) : Str :=
  " image not found according to id: ".toList ++ imageID ++ ", repo: ".toList ++ repo
    ++ ", tag:".toList ++ tag

/-- The function `getImage` of `main.go`; `allImages` is the package variable. -/
def getImage (allImages : List DockerImage) (repo tag imageID : Str) : Except Str DockerImage :=
  let found := appendWhere (imageMatches repo tag imageID) [] allImages
  if found.length > 1 then .error (multipleImagesError repo tag imageID)
  else if h : found.length = 0 then .error (notFoundError repo tag imageID)
  else
    have inBounds : 0 < found.length := Nat.pos_of_ne_zero h
    .ok found[0]

/-- The function `stopContainers`; `allContainers` is the package variable. -/
def stopContainers {W : Type} (sh : Shell W) (image : DockerImage) :
    List DockerContainer → W → List Event × W
  | [], w => ([], w)
  | c :: cs, w =>
    if usesImage image c then
      let cmd := "docker stop ".toList ++ c.ID
      let r2 := stopContainers sh image cs (sh.exec cmd w).2
      (Event.exec cmd :: r2.1, r2.2)
    else stopContainers sh image cs w

/-- The function `removeContainers`; `allContainers` is the package variable. -/
def removeContainers {W : Type} (sh : Shell W) (image : DockerImage) :
    List DockerContainer → W → List Event × W
  | [], w => ([], w)
  | c :: cs, w =>
    if usesImage image c then
      let cmd := "docker rm ".toList ++ c.ID
      let r2 := removeContainers sh image cs (sh.exec cmd w).2
      (Event.exec cmd :: r2.1, r2.2)
    else removeContainers sh image cs w

/-- The function `removeImage` of `main.go`. -/
def removeImage {W : Type} (sh : Shell W) (di : DockerImage) (w : W) : List Event × W :=
  let cmd := "docker rmi ".toList ++ rmiTarget di
  ([Event.exec cmd], (sh.exec cmd w).2)

/-- Lines 38 to 52 of `main`: the query made from one argument.  The branch that
logs the format error does not leave the loop body. -/
def parseArg (image : Str) : Query :=
  let index := strings.Index image ':'
  if index ≥ 0 then
    if index > 0 ∧ index < (image.length : Int) then
      let sepIndex := strings.Index image ':'
      { imageRepo := image.take sepIndex.toNat,
        imageTag := image.drop (sepIndex.toNat + 1),
        imageID := [] }
    else { imageRepo := [], imageTag := [], imageID := [] }
  else { imageRepo := [], imageTag := [], imageID := image }

/-- The body of the loop `for _, image := range args` of `main`. -/
def processArg {W : Type} (allImages : List DockerImage) (allContainers : List DockerContainer)
    (sh : Shell W) (image : Str) (w : W) : List Event × W :=
  let q := parseArg image
  match getImage allImages q.imageRepo q.imageTag q.imageID with
  | .error _ => ([], w)
  | .ok di =>
    let s := stopContainers sh di allContainers w
    let rc := removeContainers sh di allContainers s.2
    let ri := removeImage sh di rc.2
    (s.1 ++ rc.1 ++ ri.1, ri.2)

/-- The loop `for _, image := range args` of `main`; `args` is `flag.Args()`. -/
def main {W : Type} (allImages : List DockerImage) (allContainers : List DockerContainer)
    (sh : Shell W) : List Str → W → List Event × W
  | [], w => ([], w)
  | image :: rest, w =>
    let r1 := processArg allImages allContainers sh image w
    let r2 := main allImages allContainers sh rest r1.2
    (r1.1 ++ r2.1, r2.2)

/-- Lines 173 to 189 of `getAllContainers`: the `(imageRepo, imageTag)` of a
container from the parts of its image column. -/
def imageOfParts (allImages : List DockerImage) (imgParts : List Str) : Str × Str :=
  match imgParts with
  | [repo, tag] => (repo, tag)
  | [field] =>
    match getImage allImages [] [] field with
    | .ok img => (img.Repo, img.Tag)
    | .error _ =>
      match getImage allImages field "latest".toList [] with
      | .ok img => (img.Repo, img.Tag)
      | .error _ => ([], [])
  | _ => ([], [])

/-- The body of the scanner loop of `getAllContainers`: the container of one
line of `docker ps -a --format "ID Image"`, or `none` where the loop takes
`continue`. -/
def containerOfLine (allImages : List DockerImage) (text : Str) : Option DockerContainer :=
  match strings.Split text ' ' with
  | [id, image] =>
    let it := imageOfParts allImages (strings.Split image ':')
    some { ID := id, ImageRepo := it.1, ImageTag := it.2 }
  | _ => none

/-- The scanner loop of `getAllContainers` (lines 163 to 203), as a function of
`outputBytes`. -/
def getAllContainers (allImages : List DockerImage) (outputBytes : Str) : List DockerContainer :=
  (bufio.Lines outputBytes).filterMap (containerOfLine allImages)

end MainGo

/-! ## The specification's vocabulary -/

/-- The candidates of a lookup, in the words of the specification: the images of
the snapshot, in snapshot order, with `Repo = repo` and `Tag = tag`, or with a
non-empty `id` that their `ID` starts with. -/
def candidates (allImages : List DockerImage) (repo tag id : Str) : List DockerImage :=
  allImages.filter (fun img =>
    decide ((img.Repo = repo ∧ img.Tag = tag) ∨ (id ≠ [] ∧ id <+: img.ID)))

/-- The dependents of an image, in the words of the specification: the
containers whose `(ImageRepo, ImageTag)` equals the image's `(Repo, Tag)`, in
snapshot order. -/
def dependents (image : DockerImage) (containers : List DockerContainer) : List DockerContainer :=
  containers.filter (fun c => decide (c.ImageRepo = image.Repo ∧ c.ImageTag = image.Tag))

/-- The command text of `stopC` and `stopContainers`. -/
def stopCmd (c : DockerContainer) : Str := "docker stop ".toList ++ c.ID

/-- The command text of `removeContainers`. -/
def rmCmd (c : DockerContainer) : Str := "docker rm ".toList ++ c.ID

/-- The command text of `removeImage`. -/
def rmiCmd (di : DockerImage) : Str := "docker rmi ".toList ++ rmiTarget di

/-- The teardown of one resolved image, in the words of the specification (its
Teardown Sequencer): with running dependents and no permission to stop them,
nothing; otherwise a stop per running dependent, a removal per dependent, and
the removal of the image. -/
def teardownCommands (v : RootGo.Vars) (di : DockerImage) : List Str :=
  if v.stopRunningContainers = false ∧ dependents di v.runningContainers ≠ [] then []
  else
    (dependents di v.runningContainers).map stopCmd
      ++ (dependents di v.allContainers).map rmCmd ++ [rmiCmd di]

/-- The commands one argument of `run` stands for: none when it does not
resolve, the teardown of the image it resolves to otherwise. -/
def argCommands (v : RootGo.Vars) (image : Str) : List Str :=
  match RootGo.getImage v.allImages (RootGo.parseArg image).1.imageRepo
      (RootGo.parseArg image).1.imageTag (RootGo.parseArg image).1.imageID with
  | .error _ => []
  | .ok di => teardownCommands v di

/-- What `run` prints when it leaves an image alone because of its running
containers. -/
def blockedReport (running : List DockerContainer) : List Event :=
  [RootGo.pInfoln "Running containers exist, please stop these containers manually:".toList]
    ++ running.map (fun c => RootGo.pInfof ("\t".toList ++ c.ID ++ "\n".toList))
    ++ [RootGo.pInfoln "or try again with \"-r\" flag".toList]

/-- A shell in which every command succeeds and prints nothing; the world is trivial. -/
def quietShell : Shell Unit := { exec := fun _ w => ({ stdout := [], err := none }, w) }

/-- A shell in which every command fails; the world counts the commands run. -/
def failingShell : Shell Nat :=
  { exec := fun _ w => ({ stdout := [], err := some "exit status 1".toList }, w + 1) }

/-! ## Concrete snapshots -/

/-- A snapshot of two images, read from the output of `docker images`. -/
def demoImages : List DockerImage :=
  getAllImages "abc123:repo1:tag1\ndef456:repo2:latest\n".toList

/-- Package variables over `demoImages`: three containers, of which `c1` runs. -/
def demoVars (stop : Bool) : RootGo.Vars :=
  { allImages := demoImages
    allContainers := RootGo.getContainers demoImages "c1|repo1:tag1\nc2|repo1:tag1\nc3|repo2\n".toList
    runningContainers := RootGo.getContainers demoImages "c1|repo1:tag1\n".toList
    stopRunningContainers := stop
    printVersion := false }

/-- A snapshot in which the token `abc` is the start of one image's ID and the
repository of another image tagged `latest`. -/
def bareImages : List DockerImage :=
  getAllImages "abc123:foo:1\ndef456:abc:latest\n".toList

/-- A snapshot of one image. -/
def oneImage : List DockerImage := getAllImages "abc123:foo:1\n".toList

/-- A snapshot of one image whose repository column is empty. -/
def noRepoImages : List DockerImage := getAllImages "abc::v1\n".toList

/-- A snapshot of one image whose repository and tag columns are both empty. -/
def noNameImages : List DockerImage := getAllImages "abc::\n".toList

/-- A snapshot of two images whose repository and tag columns are all empty. -/
def twoNoNameImages : List DockerImage := getAllImages "aaa::\nbbb::\n".toList

/-- A snapshot of two untagged images, as `docker images` lists them. -/
def untaggedImages : List DockerImage :=
  getAllImages "aaa111:<none>:<none>\nbbb222:<none>:<none>\n".toList

/-- Package variables over `untaggedImages`: one running container, created
from the image `bbb222` and listed by `docker ps` under that ID. -/
def untaggedVars : RootGo.Vars :=
  { allImages := untaggedImages
    allContainers := RootGo.getContainers untaggedImages "c9|bbb222\n".toList
    runningContainers := RootGo.getContainers untaggedImages "c9|bbb222\n".toList
    stopRunningContainers := true
    printVersion := false }

/-- Container-list output with one line in the format of `cmd/root.go` and one
in the format of `main.go`. -/
def twoFormats : Str := "c1|repo1:tag1\nc2 repo1:tag1\n".toList

/-! ## Lemmas on the shared code -/

theorem appendWhere_eq_append_filter {α : Type} (p : α → Bool) (acc xs : List α) :
    appendWhere p acc xs = acc ++ xs.filter p := by
  induction xs generalizing acc with
  | nil => simp [appendWhere]
  | cons x xs ih =>
    unfold appendWhere
    by_cases hp : p x = true
    · simp [hp, ih]
    · simp [hp, ih]

theorem imageMatches_iff (repo tag id : Str) (img : DockerImage) :
    imageMatches repo tag id img = true ↔
      ((img.Repo = repo ∧ img.Tag = tag) ∨ (id ≠ [] ∧ id <+: img.ID)) := by
  simp [imageMatches, strings.HasPrefix]

theorem found_eq_candidates (allImages : List DockerImage) (repo tag id : Str) :
    appendWhere (imageMatches repo tag id) [] allImages = candidates allImages repo tag id := by
  rw [appendWhere_eq_append_filter, List.nil_append]
  unfold candidates
  apply List.filter_congr
  intro img _
  rw [Bool.eq_iff_iff, imageMatches_iff, decide_eq_true_iff]

theorem rootPick_cases (found : List DockerImage) (repo tag id : Str) :
    (if found.length > 1 then Except.error (RootGo.multipleImagesError found)
      else if h : found.length = 0 then Except.error (RootGo.notFoundError repo tag id)
      else
        have inBounds : 0 < found.length := Nat.pos_of_ne_zero h
        Except.ok found[0]) =
      match found with
      | [] => .error (RootGo.notFoundError repo tag id)
      | [img] => .ok img
      | found => .error (RootGo.multipleImagesError found) := by
  rcases found with _ | ⟨a, _ | ⟨b, l⟩⟩ <;> simp

theorem mainPick_cases (found : List DockerImage) (repo tag id : Str) :
    (if found.length > 1 then Except.error (MainGo.multipleImagesError repo tag id)
      else if h : found.length = 0 then Except.error (MainGo.notFoundError repo tag id)
      else
        have inBounds : 0 < found.length := Nat.pos_of_ne_zero h
        Except.ok found[0]) =
      match found with
      | [] => .error (MainGo.notFoundError repo tag id)
      | [img] => .ok img
      | _ => .error (MainGo.multipleImagesError repo tag id) := by
  rcases found with _ | ⟨a, _ | ⟨b, l⟩⟩ <;> simp

theorem rootGetImage_cases (allImages : List DockerImage) (repo tag id : Str) :
    RootGo.getImage allImages repo tag id =
      match candidates allImages repo tag id with
      | [] => .error (RootGo.notFoundError repo tag id)
      | [img] => .ok img
      | found => .error (RootGo.multipleImagesError found) := by
  rw [← found_eq_candidates]
  exact rootPick_cases _ repo tag id

theorem mainGetImage_cases (allImages : List DockerImage) (repo tag id : Str) :
    MainGo.getImage allImages repo tag id =
      match candidates allImages repo tag id with
      | [] => .error (MainGo.notFoundError repo tag id)
      | [img] => .ok img
      | _ => .error (MainGo.multipleImagesError repo tag id) := by
  rw [← found_eq_candidates]
  exact mainPick_cases _ repo tag id

theorem rootGetImage_ok_iff (allImages : List DockerImage) (repo tag id : Str)
    (img : DockerImage) :
    RootGo.getImage allImages repo tag id = .ok img ↔ candidates allImages repo tag id = [img] := by
  rw [rootGetImage_cases]
  rcases candidates allImages repo tag id with _ | ⟨a, _ | ⟨b, l⟩⟩ <;> simp

theorem mainGetImage_ok_iff (allImages : List DockerImage) (repo tag id : Str)
    (img : DockerImage) :
    MainGo.getImage allImages repo tag id = .ok img ↔ candidates allImages repo tag id = [img] := by
  rw [mainGetImage_cases]
  rcases candidates allImages repo tag id with _ | ⟨a, _ | ⟨b, l⟩⟩ <;> simp

/-! ## C2: the outcome of a lookup -/

/-- C2. For every snapshot and every `(repo, tag, id)`, `getImage` of
`cmd/root.go` is decided by the candidates: none gives the not-found error,
exactly one gives that candidate, two or more give the multiple-images error
(listing them); so it returns an image if and only if there is exactly one
candidate. `getImage` of `main.go` is decided the same way and succeeds on the
same inputs with the same image. -/
theorem C2_getImage_outcome (allImages : List DockerImage) (repo tag id : Str) :
    (RootGo.getImage allImages repo tag id =
      match candidates allImages repo tag id with
      | [] => .error (RootGo.notFoundError repo tag id)
      | [img] => .ok img
      | found => .error (RootGo.multipleImagesError found)) ∧
    (MainGo.getImage allImages repo tag id =
      match candidates allImages repo tag id with
      | [] => .error (MainGo.notFoundError repo tag id)
      | [img] => .ok img
      | _ => .error (MainGo.multipleImagesError repo tag id)) ∧
    ((∃ img, RootGo.getImage allImages repo tag id = .ok img) ↔
      (candidates allImages repo tag id).length = 1) ∧
    (∀ img, RootGo.getImage allImages repo tag id = .ok img ↔
      candidates allImages repo tag id = [img]) ∧
    (∀ img, MainGo.getImage allImages repo tag id = .ok img ↔
      RootGo.getImage allImages repo tag id = .ok img) := by
  refine ⟨rootGetImage_cases _ _ _ _, mainGetImage_cases _ _ _ _, ?_, ?_, ?_⟩
  · constructor
    · rintro ⟨img, h⟩
      rw [rootGetImage_ok_iff] at h
      simp [h]
    · intro h
      obtain ⟨img, himg⟩ := List.length_eq_one.mp h
      exact ⟨img, (rootGetImage_ok_iff _ _ _ _ _).mpr himg⟩
  · intro img
    exact rootGetImage_ok_iff _ _ _ _ _
  · intro img
    rw [rootGetImage_ok_iff, mainGetImage_ok_iff]

/-! ## Lemmas on the commands of `cmd/root.go` -/

theorem commands_append (a b : List Event) : commands (a ++ b) = commands a ++ commands b := by
  induction a with
  | nil => rfl
  | cons e es ih => cases e <;> simp [commands, ih]

theorem usesImage_iff (image : DockerImage) (c : DockerContainer) :
    usesImage image c = true ↔ (c.ImageRepo = image.Repo ∧ c.ImageTag = image.Tag) := by
  simp [usesImage]

theorem filter_usesImage (image : DockerImage) (cs : List DockerContainer) :
    cs.filter (usesImage image) = dependents image cs := by
  unfold dependents
  apply List.filter_congr
  intro c _
  rw [Bool.eq_iff_iff, usesImage_iff, decide_eq_true_iff]

theorem getRunningContainers_eq (running : List DockerContainer) (image : DockerImage) :
    RootGo.getRunningContainers running image = dependents image running := by
  unfold RootGo.getRunningContainers
  rw [appendWhere_eq_append_filter, List.nil_append, filter_usesImage]

theorem commands_stopC {W : Type} (sh : Shell W) (c : DockerContainer) (w : W) :
    commands (RootGo.stopC sh c.ID w).1 = [stopCmd c] := by
  unfold RootGo.stopC
  dsimp only
  cases (sh.exec ("docker stop ".toList ++ c.ID) w).1.err <;> rfl

theorem commands_stopAll {W : Type} (sh : Shell W) (cs : List DockerContainer) (w : W) :
    commands (RootGo.stopAll sh cs w).1 = cs.map stopCmd := by
  induction cs generalizing w with
  | nil => rfl
  | cons c cs ih => simp [RootGo.stopAll, commands_append, commands_stopC, ih]

theorem commands_removeC {W : Type} (sh : Shell W) (c : DockerContainer) (w : W) :
    commands (RootGo.removeC sh c w).1 = [rmCmd c] := by
  unfold RootGo.removeC
  dsimp only
  cases (sh.exec ("docker rm ".toList ++ c.ID) w).1.err <;> rfl

theorem commands_removeContainers {W : Type} (sh : Shell W) (image : DockerImage)
    (cs : List DockerContainer) (w : W) :
    commands (RootGo.removeContainers sh image cs w).1 = (dependents image cs).map rmCmd := by
  rw [← filter_usesImage]
  induction cs generalizing w with
  | nil => rfl
  | cons c cs ih =>
    unfold RootGo.removeContainers
    by_cases hc : usesImage image c = true
    · simp [hc, commands_append, commands_removeC, ih]
    · simp [hc, ih]

theorem commands_removeImage {W : Type} (sh : Shell W) (di : DockerImage) (w : W) :
    commands (RootGo.removeImage sh di w).1 = [rmiCmd di] := by
  unfold RootGo.removeImage
  dsimp only
  cases (sh.exec ("docker rmi ".toList ++ rmiTarget di) w).1.err <;> rfl

theorem commands_parseArg (image : Str) : commands (RootGo.parseArg image).2 = [] := by
  unfold RootGo.parseArg
  dsimp only
  split_ifs <;> rfl

theorem commands_blockedReport (running : List DockerContainer) :
    commands (blockedReport running) = [] := by
  unfold blockedReport
  rw [commands_append, commands_append]
  have h : commands (running.map
      (fun c => RootGo.pInfof ("\t".toList ++ c.ID ++ "\n".toList))) = [] := by
    induction running with
    | nil => rfl
    | cons c cs ih => simpa [commands, RootGo.pInfof] using ih
  rw [h]
  rfl

theorem checkRunning_blocked {W : Type} (v : RootGo.Vars) (sh : Shell W) (di : DockerImage)
    (w : W) (hstop : v.stopRunningContainers = false)
    (hdep : dependents di v.runningContainers ≠ []) :
    RootGo.checkRunning v sh di w = ((blockedReport (dependents di v.runningContainers), w), false) := by
  unfold RootGo.checkRunning
  rw [getRunningContainers_eq]
  have hlen : (dependents di v.runningContainers).length ≠ 0 := by
    simpa [List.length_eq_zero] using hdep
  simp [hlen, hstop, blockedReport]

theorem checkRunning_proceeds {W : Type} (v : RootGo.Vars) (sh : Shell W) (di : DockerImage)
    (w : W) (h : ¬ (v.stopRunningContainers = false ∧ dependents di v.runningContainers ≠ [])) :
    (RootGo.checkRunning v sh di w).2 = true ∧
      commands (RootGo.checkRunning v sh di w).1.1 =
        (dependents di v.runningContainers).map stopCmd := by
  unfold RootGo.checkRunning
  rw [getRunningContainers_eq]
  by_cases hlen : (dependents di v.runningContainers).length = 0
  · have hnil : dependents di v.runningContainers = [] := List.length_eq_zero.mp hlen
    simp [hnil, commands]
  · have hne : dependents di v.runningContainers ≠ [] := by
      simpa [List.length_eq_zero] using hlen
    have hstop : v.stopRunningContainers = true := by
      cases hs : v.stopRunningContainers
      · exact absurd ⟨hs, hne⟩ h
      · rfl
    simp [hlen, hstop, commands_stopAll]

theorem commands_processArg {W : Type} (v : RootGo.Vars) (sh : Shell W) (image : Str) (w : W) :
    commands (RootGo.processArg v sh image w).1 = argCommands v image := by
  unfold RootGo.processArg argCommands
  dsimp only
  cases RootGo.getImage v.allImages (RootGo.parseArg image).1.imageRepo
      (RootGo.parseArg image).1.imageTag (RootGo.parseArg image).1.imageID with
  | error err => simp [commands_append, commands_parseArg, commands, RootGo.pInfof]
  | ok di =>
    dsimp only
    unfold teardownCommands
    by_cases hb : v.stopRunningContainers = false ∧ dependents di v.runningContainers ≠ []
    · rw [checkRunning_blocked v sh di w hb.1 hb.2]
      simp [hb, commands_append, commands_parseArg, commands_blockedReport]
    · obtain ⟨h1, h2⟩ := checkRunning_proceeds v sh di w hb
      simp [hb, h1, h2, commands_append, commands_parseArg, commands_removeContainers,
        commands_removeImage]

theorem commands_runLoop {W : Type} (v : RootGo.Vars) (sh : Shell W) (args : List Str) (w : W) :
    commands (RootGo.runLoop v sh args w).1 = (args.map (argCommands v)).flatten := by
  induction args generalizing w with
  | nil => rfl
  | cons a rest ih => simp [RootGo.runLoop, commands_append, commands_processArg, ih]

theorem commands_run {W : Type} (v : RootGo.Vars) (sh : Shell W) (args : List Str) (w : W) :
    commands (RootGo.run v sh args w).1 =
      if v.printVersion then [] else (args.map (argCommands v)).flatten := by
  unfold RootGo.run
  by_cases hv : v.printVersion = true
  · simp [hv, commands]
  · have hf : v.printVersion = false := by simpa using hv
    by_cases hargs : args.length = 0
    · simp [hf, hargs, commands, RootGo.pErrorln, commands_append, commands_runLoop]
    · simp [hf, hargs, commands, commands_append, commands_runLoop]

/-! ## Lemmas on `strings.Index` and `strings.Split` -/

theorem index_of_not_mem (s : Str) (sep : Char) (h : sep ∉ s) : strings.Index s sep = -1 := by
  induction s with
  | nil => rfl
  | cons c cs ih =>
    have hc : ¬ c = sep := fun e => h (by simp [e])
    have hcs : sep ∉ cs := fun m => h (List.mem_cons_of_mem _ m)
    simp [strings.Index, hc, ih hcs]

theorem index_append_sep (a b : Str) (sep : Char) (h : sep ∉ a) :
    strings.Index (a ++ sep :: b) sep = (a.length : Int) := by
  induction a with
  | nil => simp [strings.Index]
  | cons c cs ih =>
    have hc : ¬ c = sep := fun e => h (by simp [e])
    have hcs : sep ∉ cs := fun m => h (List.mem_cons_of_mem _ m)
    have hnn : ¬ ((cs.length : Int) < 0) := by omega
    simp [strings.Index, hc, ih hcs, hnn]

theorem split_of_not_mem (s : Str) (sep : Char) (h : sep ∉ s) : strings.Split s sep = [s] := by
  induction s with
  | nil => rfl
  | cons c cs ih =>
    have hc : ¬ c = sep := fun e => h (by simp [e])
    have hcs : sep ∉ cs := fun m => h (List.mem_cons_of_mem _ m)
    simp [strings.Split, hc, ih hcs]

theorem split_append_sep (a b : Str) (sep : Char) (h : sep ∉ a) :
    strings.Split (a ++ sep :: b) sep = a :: strings.Split b sep := by
  induction a with
  | nil => simp [strings.Split]
  | cons c cs ih =>
    have hc : ¬ c = sep := fun e => h (by simp [e])
    have hcs : sep ∉ cs := fun m => h (List.mem_cons_of_mem _ m)
    simp [strings.Split, hc, ih hcs]

theorem not_mem_of_mem_split (s : Str) (sep : Char) :
    ∀ p ∈ strings.Split s sep, sep ∉ p := by
  induction s with
  | nil => simp [strings.Split]
  | cons c cs ih =>
    intro p hp
    unfold strings.Split at hp
    by_cases hc : c = sep
    · simp only [hc, if_true, List.mem_cons] at hp
      rcases hp with rfl | hp
      · simp
      · exact ih p hp
    · simp only [hc, if_false] at hp
      rcases hsp : strings.Split cs sep with _ | ⟨q, qs⟩
      · rw [hsp] at hp
        simp only [List.mem_singleton] at hp
        subst hp
        simpa using fun e => hc e.symm
      · rw [hsp] at hp ih
        simp only [List.mem_cons] at hp
        rcases hp with rfl | hp
        · have hq := ih q (by simp)
          simp only [List.mem_cons, not_or]
          exact ⟨fun e => hc e.symm, hq⟩
        · exact ih p (by simp [hp])

/-! ## C1: the safety gate -/

/-- C1. In `run` of `cmd/root.go`, when an argument resolves to an image `di`,
`stopRunningContainers` is false and some container of the running snapshot has
`(ImageRepo, ImageTag) = (di.Repo, di.Tag)`, processing that argument only
prints (what parsing printed, then the report of the blocking containers): it
runs no command at all and leaves the world as it was, and the loop goes on
with the remaining arguments, so that the commands of a whole `run` are those
of the arguments before it followed by those of the arguments after it. -/
theorem C1_safety_gate {W : Type} (v : RootGo.Vars) (sh : Shell W) (arg : Str)
    (di : DockerImage) (w : W)
    (hres : RootGo.getImage v.allImages (RootGo.parseArg arg).1.imageRepo
      (RootGo.parseArg arg).1.imageTag (RootGo.parseArg arg).1.imageID = .ok di)
    (hstop : v.stopRunningContainers = false)
    (hrun : ∃ c ∈ v.runningContainers, c.ImageRepo = di.Repo ∧ c.ImageTag = di.Tag) :
    RootGo.processArg v sh arg w =
        ((RootGo.parseArg arg).2
          ++ blockedReport (RootGo.getRunningContainers v.runningContainers di), w) ∧
      commands (RootGo.processArg v sh arg w).1 = [] ∧
      (∀ rest, RootGo.runLoop v sh (arg :: rest) w =
        ((RootGo.processArg v sh arg w).1 ++ (RootGo.runLoop v sh rest w).1,
          (RootGo.runLoop v sh rest w).2)) ∧
      (∀ pre rest w0 w1 w2, commands (RootGo.run v sh (pre ++ arg :: rest) w0).1 =
        commands (RootGo.run v sh pre w1).1 ++ commands (RootGo.run v sh rest w2).1) := by
  have hdep : dependents di v.runningContainers ≠ [] := by
    obtain ⟨c, hc, hrt⟩ := hrun
    intro hnil
    have hmem : c ∈ dependents di v.runningContainers := by
      unfold dependents
      exact List.mem_filter.mpr ⟨hc, by simpa using hrt⟩
    rw [hnil] at hmem
    exact absurd hmem (List.not_mem_nil c)
  have hproc : RootGo.processArg v sh arg w =
      ((RootGo.parseArg arg).2
        ++ blockedReport (RootGo.getRunningContainers v.runningContainers di), w) := by
    unfold RootGo.processArg
    simp only [hres]
    rw [checkRunning_blocked v sh di w hstop hdep, getRunningContainers_eq]
    simp
  have hcmd : argCommands v arg = [] := by
    unfold argCommands
    simp only [hres]
    unfold teardownCommands
    simp [hstop, hdep]
  refine ⟨hproc, ?_, ?_, ?_⟩
  · rw [commands_processArg, hcmd]
  · intro rest
    have hw : (RootGo.processArg v sh arg w).2 = w := by rw [hproc]
    simp [RootGo.runLoop, hw]
  · intro pre rest w0 w1 w2
    simp only [commands_run]
    split_ifs
    · rfl
    · simp [hcmd]

/-- C1 at a concrete input: `repo1:tag1` resolves, container `c1` runs on it
and stopping is off; nothing is run for it, and the argument after it is torn
down. -/
theorem C1_safety_gate_witness :
    (demoVars false).stopRunningContainers = false ∧
      commands (RootGo.processArg (demoVars false) quietShell "repo1:tag1".toList ()).1 = [] ∧
      commands (RootGo.run (demoVars false) quietShell
        ["repo1:tag1".toList, "repo2".toList] ()).1 =
        ["docker rm c3".toList, "docker rmi def456".toList] :=
  have h := C1_safety_gate (demoVars false) quietShell "repo1:tag1".toList
    { Repo := "repo1".toList, Tag := "tag1".toList, ID := "abc123".toList } ()
    (by rfl) (by rfl)
    ⟨{ ID := "c1".toList, ImageRepo := "repo1".toList, ImageTag := "tag1".toList },
      by decide, by decide⟩
  ⟨rfl, h.2.1, (h.2.2.2 [] ["repo2".toList] () () ()).trans (by decide)⟩

/-! ## C4: the teardown sequence -/

/-- C4. In `run` of `cmd/root.go` with `stopRunningContainers = true`, for an
argument that resolves to an image `di`, the commands run for that argument
are exactly: `docker stop <c.ID>` for each container of the running snapshot
with `di`'s `(Repo, Tag)`, in snapshot order; then `docker rm <c.ID>` for each
such container of the all-containers snapshot, in snapshot order; then one
`docker rmi <a>`, where `a` is `di.ID` if that is not empty and
`di.Repo + ":" + di.Tag` otherwise. This holds for every shell and every world,
that is whatever the commands return. -/
theorem C4_teardown_sequence {W : Type} (v : RootGo.Vars) (sh : Shell W) (arg : Str)
    (di : DockerImage) (w : W)
    (hres : RootGo.getImage v.allImages (RootGo.parseArg arg).1.imageRepo
      (RootGo.parseArg arg).1.imageTag (RootGo.parseArg arg).1.imageID = .ok di)
    (hstop : v.stopRunningContainers = true) :
    commands (RootGo.processArg v sh arg w).1 =
      (dependents di v.runningContainers).map (fun c => "docker stop ".toList ++ c.ID)
        ++ (dependents di v.allContainers).map (fun c => "docker rm ".toList ++ c.ID)
        ++ ["docker rmi ".toList
              ++ (if di.ID ≠ [] then di.ID else di.Repo ++ ":".toList ++ di.Tag)] := by
  rw [commands_processArg]
  unfold argCommands
  simp only [hres]
  unfold teardownCommands
  rw [if_neg (by simp [hstop])]
  rfl

/-- C4 at a concrete input, in a shell where every command fails: the sequence
for `repo1:tag1` is stop `c1`, remove `c1` and `c2`, remove the image. -/
theorem C4_teardown_sequence_witness :
    (demoVars true).stopRunningContainers = true ∧
      commands (RootGo.processArg (demoVars true) failingShell "repo1:tag1".toList 0).1 =
        ["docker stop c1".toList, "docker rm c1".toList, "docker rm c2".toList,
          "docker rmi abc123".toList] :=
  ⟨rfl, by
    rw [C4_teardown_sequence (demoVars true) failingShell "repo1:tag1".toList
      { Repo := "repo1".toList, Tag := "tag1".toList, ID := "abc123".toList } 0
      (by rfl) (by rfl)]
    decide⟩

/-! ## C8: the arguments are processed independently and in order -/

/-- C8. For fixed snapshots and flags, the commands run by `run` on `xs ++ ys`
are the commands of `run` on `xs` followed by those of `run` on `ys`, from
whatever worlds these start; and an argument for which `getImage` returns an
error runs no command, the other arguments being processed as if it were
absent. -/
theorem C8_arguments_independent {W : Type} (v : RootGo.Vars) (sh : Shell W) :
    (∀ (xs ys : List Str) (w w1 w2 : W),
      commands (RootGo.run v sh (xs ++ ys) w).1 =
        commands (RootGo.run v sh xs w1).1 ++ commands (RootGo.run v sh ys w2).1) ∧
    (∀ (xs ys : List Str) (a : Str) (w w1 w2 : W),
      (∃ err, RootGo.getImage v.allImages (RootGo.parseArg a).1.imageRepo
        (RootGo.parseArg a).1.imageTag (RootGo.parseArg a).1.imageID = .error err) →
      commands (RootGo.processArg v sh a w).1 = [] ∧
        commands (RootGo.run v sh (xs ++ a :: ys) w).1 =
          commands (RootGo.run v sh xs w1).1 ++ commands (RootGo.run v sh ys w2).1 ∧
        commands (RootGo.run v sh (xs ++ a :: ys) w).1 =
          commands (RootGo.run v sh (xs ++ ys) w1).1) := by
  constructor
  · intro xs ys w w1 w2
    simp only [commands_run]
    split_ifs <;> simp
  · rintro xs ys a w w1 w2 ⟨err, herr⟩
    have hcmd : argCommands v a = [] := by
      unfold argCommands
      simp only [herr]
    refine ⟨by rw [commands_processArg, hcmd], ?_, ?_⟩
    · simp only [commands_run]
      split_ifs <;> simp [hcmd]
    · simp only [commands_run]
      split_ifs <;> simp [hcmd]

/-- C8 at a concrete input: of three arguments the second is not found; the
first and the third are torn down, in this order. -/
theorem C8_arguments_independent_witness :
    commands (RootGo.run (demoVars true) quietShell
        ["repo2".toList, "nosuch:tag".toList, "repo1:tag1".toList] ()).1 =
      ["docker rm c3".toList, "docker rmi def456".toList, "docker stop c1".toList,
        "docker rm c1".toList, "docker rm c2".toList, "docker rmi abc123".toList] :=
  (((C8_arguments_independent (demoVars true) quietShell).2 ["repo2".toList]
    ["repo1:tag1".toList] "nosuch:tag".toList () () () ⟨_, rfl⟩).2.1).trans (by decide)

/-! ## C3: an argument with a leading `:` -/

/-- C3 (the code departs from the claim). Every argument with a leading `:`
makes `run` print the format error and then go on with the empty query:
`getImage` is called with three empty strings. In a snapshot whose only image has an empty
repository and an empty tag that lookup resolves, and the image is removed.
The loop of `main.go` does the same. -/
theorem C3_leading_colon_falls_through :
    (∀ rest : Str, RootGo.parseArg (':' :: rest) =
        ({ imageRepo := [], imageTag := [], imageID := [] },
          [Event.stderr "[Error] invalid image format, must conform to \"repo:tag\"\n".toList])) ∧
      RootGo.getImage noNameImages [] [] [] =
        .ok { Repo := [], Tag := [], ID := "abc".toList } ∧
      RootGo.run { allImages := noNameImages, allContainers := [], runningContainers := [],
                   stopRunningContainers := true, printVersion := false }
          quietShell [":v1".toList] () =
        ([Event.stderr "[Error] invalid image format, must conform to \"repo:tag\"\n".toList,
          Event.exec "docker rmi abc".toList,
          Event.stdout "[Info] removed image abc\n".toList], ()) ∧
      commands (MainGo.main noNameImages [] quietShell [":v1".toList] ()).1 =
        ["docker rmi abc".toList] := by
  refine ⟨?_, by rfl, by decide, by decide⟩
  intro rest
  simp [RootGo.parseArg, strings.Index, RootGo.pErrorln]

/-! ## C5: a bare reference resolved by ID prefix -/

theorem rootParseArg_bare (input : Str) (hcolon : ':' ∉ input) :
    RootGo.parseArg input =
      ({ imageRepo := input, imageTag := "latest".toList, imageID := input }, []) := by
  unfold RootGo.parseArg
  simp [index_of_not_mem input ':' hcolon]

/-- C5, as stated, fails on the code in two ways. With the empty argument the
ID is not consulted at all: in a snapshot of one image, whose ID does start
with the empty string, the lookup finds nothing. With the argument `abc`, one
image's ID starts with `abc` and another image is `abc:latest`: both are found
and the lookup ends in the multiple-images error. -/
theorem C5_counterexample :
    ((':' ∉ ([] : Str)) ∧
      oneImage.filter (fun img => decide (([] : Str) <+: img.ID)) =
        [{ Repo := "foo".toList, Tag := "1".toList, ID := "abc123".toList }] ∧
      RootGo.parseArg [] = ({ imageRepo := [], imageTag := "latest".toList, imageID := [] }, []) ∧
      RootGo.getImage oneImage [] "latest".toList [] =
        .error (RootGo.notFoundError [] "latest".toList [])) ∧
    ((':' ∉ "abc".toList) ∧
      bareImages.filter (fun img => decide ("abc".toList <+: img.ID)) =
        [{ Repo := "foo".toList, Tag := "1".toList, ID := "abc123".toList }] ∧
      RootGo.parseArg "abc".toList =
        ({ imageRepo := "abc".toList, imageTag := "latest".toList, imageID := "abc".toList }, []) ∧
      RootGo.getImage bareImages "abc".toList "latest".toList "abc".toList =
        .error (RootGo.multipleImagesError bareImages)) := by
  refine ⟨⟨by decide, by decide, by decide, by rfl⟩, ⟨by decide, by decide, by decide, by rfl⟩⟩

/-- C5, amended. For every non-empty input that contains no `:` and every
snapshot: if exactly one image `I` of the snapshot has an ID that starts with
the input, and no other image has `Repo = input` with `Tag = "latest"`, then
`run` makes the query `(input, "latest", input)` of it and `getImage` returns
`I`, whether or not any image's `Repo` equals the input. -/
theorem C5_bare_reference_by_id (allImages : List DockerImage) (input : Str)
    (I : DockerImage) (hcolon : ':' ∉ input) (hne : input ≠ [])
    (hone : allImages.filter (fun img => decide (input <+: img.ID)) = [I])
    (hrepo : ∀ img ∈ allImages, img.Repo = input → img.Tag = "latest".toList →
      input <+: img.ID) :
    RootGo.parseArg input =
        ({ imageRepo := input, imageTag := "latest".toList, imageID := input }, []) ∧
      RootGo.getImage allImages (RootGo.parseArg input).1.imageRepo
        (RootGo.parseArg input).1.imageTag (RootGo.parseArg input).1.imageID = .ok I := by
  refine ⟨rootParseArg_bare input hcolon, ?_⟩
  rw [rootParseArg_bare input hcolon, rootGetImage_ok_iff, ← hone]
  unfold candidates
  apply List.filter_congr
  intro img himg
  rw [Bool.eq_iff_iff, decide_eq_true_iff, decide_eq_true_iff]
  constructor
  · rintro (⟨h1, h2⟩ | ⟨_, h⟩)
    · exact hrepo img himg h1 h2
    · exact h
  · intro h
    exact Or.inr ⟨hne, h⟩

/-- C5 (amended) at a concrete input: `def4` is the start of one ID and no
repository is called so. -/
theorem C5_bare_reference_witness :
    RootGo.getImage bareImages (RootGo.parseArg "def4".toList).1.imageRepo
        (RootGo.parseArg "def4".toList).1.imageTag (RootGo.parseArg "def4".toList).1.imageID =
      .ok { Repo := "abc".toList, Tag := "latest".toList, ID := "def456".toList } :=
  (C5_bare_reference_by_id bareImages "def4".toList
    { Repo := "abc".toList, Tag := "latest".toList, ID := "def456".toList }
    (by decide) (by decide) (by decide) (by decide)).2

/-! ## C6: resolution by `repo:tag` -/

theorem rootParseArg_repoTag (repo tag : Str) (hne : repo ≠ []) (hcolon : ':' ∉ repo) :
    RootGo.parseArg (repo ++ ":".toList ++ tag) =
      ({ imageRepo := repo, imageTag := tag, imageID := [] }, []) := by
  have happ : repo ++ ":".toList ++ tag = repo ++ ':' :: tag := by
    simp
  rw [happ]
  unfold RootGo.parseArg
  have hpos : 0 < repo.length := List.length_pos.mpr hne
  have h1 : (0 : Int) ≤ (repo.length : Int) := by omega
  have h2 : (0 : Int) < (repo.length : Int) := by omega
  have h3 : (repo.length : Int) < ((repo ++ ':' :: tag).length : Int) := by
    simp only [List.length_append, List.length_cons]
    omega
  simp only [index_append_sep repo tag ':' hcolon, ge_iff_le, h1, h2, h3, and_self, if_true,
    Int.toNat_ofNat]
  simp

theorem repo_colon_free_of_getAllImages (outputBytes : Str) (I : DockerImage)
    (hI : I ∈ getAllImages outputBytes) : ':' ∉ I.Repo := by
  unfold getAllImages at hI
  obtain ⟨text, _, htext⟩ := List.mem_filterMap.mp hI
  have hparts := not_mem_of_mem_split text ':'
  rcases hsp : strings.Split text ':' with _ | ⟨a, _ | ⟨b, _ | ⟨c, _ | ⟨d, l⟩⟩⟩⟩ <;>
    rw [hsp] at htext hparts <;> simp at htext
  subst htext
  exact hparts b (by simp)

theorem rootGetImage_repoTag (allImages : List DockerImage) (I : DockerImage)
    (huniq : allImages.filter (fun J => decide (J.Repo = I.Repo ∧ J.Tag = I.Tag)) = [I]) :
    RootGo.getImage allImages I.Repo I.Tag [] = .ok I := by
  rw [rootGetImage_ok_iff, ← huniq]
  unfold candidates
  apply List.filter_congr
  intro J _
  simp

/-- C6, as stated, fails on the code. An image with an empty repository cannot
be named: the argument `:v1` is refused for its format and what is looked up is
the empty query, which does not find the image. (In the embedding a snapshot is
any list of images; one whose repository contains a `:`, which `getAllImages`
never loads, is not found either, the argument being split at its first `:`.) -/
theorem C6_counterexample :
    (noRepoImages = [{ Repo := [], Tag := "v1".toList, ID := "abc".toList }] ∧
      RootGo.parseArg (([] : Str) ++ ":".toList ++ "v1".toList) =
        ({ imageRepo := [], imageTag := [], imageID := [] },
          [RootGo.pErrorln "invalid image format, must conform to \"repo:tag\"".toList]) ∧
      RootGo.getImage noRepoImages [] [] [] = .error (RootGo.notFoundError [] [] [])) ∧
    (RootGo.parseArg ("a:b".toList ++ ":".toList ++ "c".toList) =
        ({ imageRepo := "a".toList, imageTag := "b:c".toList, imageID := [] }, []) ∧
      RootGo.getImage [{ Repo := "a:b".toList, Tag := "c".toList, ID := "abc".toList }]
          "a".toList "b:c".toList [] =
        .error (RootGo.notFoundError "a".toList "b:c".toList [])) := by
  refine ⟨⟨by decide, by decide, by rfl⟩, ⟨by decide, by rfl⟩⟩

/-- C6, amended. For every snapshot and every image `I` in it whose `Repo` is
not empty and contains no `:`, and whose `(Repo, Tag)` no other image of the
snapshot has: `run` splits the argument `I.Repo + ":" + I.Tag` into the query
`(I.Repo, I.Tag, "")` and `getImage` returns exactly `I`. The images that
`getAllImages` loads never have a `:` in their `Repo`, so for a snapshot it
loaded the condition is only that `I.Repo` is not empty. -/
theorem C6_resolution_by_repo_tag :
    (∀ (allImages : List DockerImage) (I : DockerImage),
      allImages.filter (fun J => decide (J.Repo = I.Repo ∧ J.Tag = I.Tag)) = [I] →
      I.Repo ≠ [] → ':' ∉ I.Repo →
      RootGo.parseArg (I.Repo ++ ":".toList ++ I.Tag) =
          ({ imageRepo := I.Repo, imageTag := I.Tag, imageID := [] }, []) ∧
        RootGo.getImage allImages (RootGo.parseArg (I.Repo ++ ":".toList ++ I.Tag)).1.imageRepo
          (RootGo.parseArg (I.Repo ++ ":".toList ++ I.Tag)).1.imageTag
          (RootGo.parseArg (I.Repo ++ ":".toList ++ I.Tag)).1.imageID = .ok I) ∧
    (∀ (outputBytes : Str) (I : DockerImage),
      (getAllImages outputBytes).filter
        (fun J => decide (J.Repo = I.Repo ∧ J.Tag = I.Tag)) = [I] →
      I.Repo ≠ [] →
      RootGo.getImage (getAllImages outputBytes)
          (RootGo.parseArg (I.Repo ++ ":".toList ++ I.Tag)).1.imageRepo
          (RootGo.parseArg (I.Repo ++ ":".toList ++ I.Tag)).1.imageTag
          (RootGo.parseArg (I.Repo ++ ":".toList ++ I.Tag)).1.imageID = .ok I) := by
  have general : ∀ (allImages : List DockerImage) (I : DockerImage),
      allImages.filter (fun J => decide (J.Repo = I.Repo ∧ J.Tag = I.Tag)) = [I] →
      I.Repo ≠ [] → ':' ∉ I.Repo →
      RootGo.parseArg (I.Repo ++ ":".toList ++ I.Tag) =
          ({ imageRepo := I.Repo, imageTag := I.Tag, imageID := [] }, []) ∧
        RootGo.getImage allImages (RootGo.parseArg (I.Repo ++ ":".toList ++ I.Tag)).1.imageRepo
          (RootGo.parseArg (I.Repo ++ ":".toList ++ I.Tag)).1.imageTag
          (RootGo.parseArg (I.Repo ++ ":".toList ++ I.Tag)).1.imageID = .ok I := by
    intro allImages I huniq hne hcolon
    refine ⟨rootParseArg_repoTag _ _ hne hcolon, ?_⟩
    rw [rootParseArg_repoTag _ _ hne hcolon]
    exact rootGetImage_repoTag allImages I huniq
  refine ⟨general, ?_⟩
  intro outputBytes I huniq hne
  have hmem : I ∈ getAllImages outputBytes := by
    have h : I ∈ (getAllImages outputBytes).filter
        (fun J => decide (J.Repo = I.Repo ∧ J.Tag = I.Tag)) := by
      rw [huniq]
      exact List.mem_singleton.mpr rfl
    exact (List.mem_filter.mp h).1
  exact (general _ I huniq hne (repo_colon_free_of_getAllImages outputBytes I hmem)).2

/-- C6 (amended) at a concrete input: `repo1:tag1` in the snapshot `demoImages`. -/
theorem C6_resolution_by_repo_tag_witness :
    RootGo.getImage demoImages (RootGo.parseArg "repo1:tag1".toList).1.imageRepo
        (RootGo.parseArg "repo1:tag1".toList).1.imageTag
        (RootGo.parseArg "repo1:tag1".toList).1.imageID =
      .ok { Repo := "repo1".toList, Tag := "tag1".toList, ID := "abc123".toList } :=
  C6_resolution_by_repo_tag.2 "abc123:repo1:tag1\ndef456:repo2:latest\n".toList
    { Repo := "repo1".toList, Tag := "tag1".toList, ID := "abc123".toList }
    (by decide) (by decide)

/-! ## C7: a container whose image is not resolved -/

theorem usesImage_unresolved (image : DockerImage) (id : Str)
    (h : image.Repo ≠ [] ∨ image.Tag ≠ []) :
    usesImage image { ID := id, ImageRepo := [], ImageTag := [] } = false := by
  rw [Bool.eq_false_iff]
  intro hu
  rw [usesImage_iff] at hu
  rcases h with h | h
  · exact h hu.1.symm
  · exact h hu.2.symm

theorem dependents_append (image : DockerImage) (pre post : List DockerContainer) :
    dependents image (pre ++ post) = dependents image pre ++ dependents image post := by
  unfold dependents
  exact List.filter_append pre post

/-- C7, as stated, fails on the code. In a snapshot of two images that both
have an empty repository and an empty tag, the line `c1|xyz` is not resolved
(the lookup by ID finds both images, the lookup by repository none), so `c1` is
recorded with empty `ImageRepo` and `ImageTag`. The argument `aaa` resolves to
the first image by its ID, and `c1` is among its running containers and is
removed with it. -/
theorem C7_counterexample :
    RootGo.getImage twoNoNameImages [] [] "xyz".toList =
        .error (RootGo.multipleImagesError twoNoNameImages) ∧
      RootGo.getImage twoNoNameImages "xyz".toList "latest".toList [] =
        .error (RootGo.notFoundError "xyz".toList "latest".toList []) ∧
      RootGo.containerOfLine twoNoNameImages "c1|xyz".toList =
        some { ID := "c1".toList, ImageRepo := [], ImageTag := [] } ∧
      RootGo.getImage twoNoNameImages (RootGo.parseArg "aaa".toList).1.imageRepo
          (RootGo.parseArg "aaa".toList).1.imageTag (RootGo.parseArg "aaa".toList).1.imageID =
        .ok { Repo := [], Tag := [], ID := "aaa".toList } ∧
      { ID := "c1".toList, ImageRepo := [], ImageTag := [] } ∈
        RootGo.getRunningContainers (RootGo.getContainers twoNoNameImages "c1|xyz\n".toList)
          { Repo := [], Tag := [], ID := "aaa".toList } ∧
      commands (RootGo.removeContainers quietShell { Repo := [], Tag := [], ID := "aaa".toList }
          (RootGo.getContainers twoNoNameImages "c1|xyz\n".toList) ()).1 =
        ["docker rm c1".toList] := by
  refine ⟨by rfl, by rfl, by decide, by rfl, by decide, by decide⟩

/-- C7, amended. For every snapshot and every container line `id|field` whose
image field contains no `:` and for which both lookups of `getContainers` fail,
the container is recorded with empty `ImageRepo` and `ImageTag`; and for every
image whose `Repo` or `Tag` is not empty, that container is not among
`getRunningContainers(image)`, and `removeContainers(image)` runs the same
commands with the container in the snapshot as without it. -/
theorem C7_unresolved_container_no_dependent (allImages : List DockerImage) (id field : Str)
    (hid : '|' ∉ id) (hbar : '|' ∉ field) (hcolon : ':' ∉ field)
    (hfirst : ∃ err, RootGo.getImage allImages [] [] field = .error err)
    (hsecond : ∃ err, RootGo.getImage allImages field "latest".toList [] = .error err) :
    RootGo.containerOfLine allImages (id ++ "|".toList ++ field) =
        some { ID := id, ImageRepo := [], ImageTag := [] } ∧
      ∀ image : DockerImage, (image.Repo ≠ [] ∨ image.Tag ≠ []) →
        (∀ running : List DockerContainer,
          { ID := id, ImageRepo := [], ImageTag := [] } ∉
            RootGo.getRunningContainers running image) ∧
        (∀ (W : Type) (sh : Shell W) (pre post : List DockerContainer) (w w0 : W),
          commands (RootGo.removeContainers sh image
              (pre ++ { ID := id, ImageRepo := [], ImageTag := [] } :: post) w).1 =
            commands (RootGo.removeContainers sh image (pre ++ post) w0).1) := by
  constructor
  · obtain ⟨e1, h1⟩ := hfirst
    obtain ⟨e2, h2⟩ := hsecond
    have happ : id ++ "|".toList ++ field = id ++ '|' :: field := by simp
    rw [happ]
    unfold RootGo.containerOfLine
    rw [split_append_sep id field '|' hid, split_of_not_mem field '|' hbar]
    dsimp only
    rw [split_of_not_mem field ':' hcolon]
    unfold RootGo.imageOfParts
    simp only [h1, h2]
  · intro image himage
    have hu := usesImage_unresolved image id himage
    constructor
    · intro running hmem
      rw [getRunningContainers_eq, ← filter_usesImage] at hmem
      have := (List.mem_filter.mp hmem).2
      rw [hu] at this
      exact Bool.false_ne_true this
    · intro W sh pre post w w0
      rw [commands_removeContainers, commands_removeContainers, dependents_append,
        dependents_append]
      have hcons : dependents image ({ ID := id, ImageRepo := [], ImageTag := [] } :: post) =
          dependents image post := by
        rw [← filter_usesImage, ← filter_usesImage, List.filter_cons, hu]
        simp
      rw [hcons]

/-- C7 (amended) at a concrete input: in `demoImages` the line `c7|gone` is not
resolved. -/
theorem C7_unresolved_container_witness :
    RootGo.containerOfLine demoImages "c7|gone".toList =
      some { ID := "c7".toList, ImageRepo := [], ImageTag := [] } :=
  (C7_unresolved_container_no_dependent demoImages "c7".toList "gone".toList
    (by decide) (by decide) (by decide) ⟨_, rfl⟩ ⟨_, rfl⟩).1

/-! ## C9: the two container-list formats -/

/-- C9, as stated, fails on the code: no parser reads both formats. Of the two
lines `c1|repo1:tag1` and `c2 repo1:tag1`, `getContainers` of `cmd/root.go`
yields `c1` only and `getAllContainers` of `main.go` yields `c2` only, so the
dependents found for the image are not `c1` and `c2`. -/
theorem C9_counterexample :
    RootGo.getContainers
        [{ Repo := "repo1".toList, Tag := "tag1".toList, ID := "abc123".toList }] twoFormats ≠
      [{ ID := "c1".toList, ImageRepo := "repo1".toList, ImageTag := "tag1".toList },
        { ID := "c2".toList, ImageRepo := "repo1".toList, ImageTag := "tag1".toList }] ∧
    MainGo.getAllContainers
        [{ Repo := "repo1".toList, Tag := "tag1".toList, ID := "abc123".toList }] twoFormats ≠
      [{ ID := "c1".toList, ImageRepo := "repo1".toList, ImageTag := "tag1".toList },
        { ID := "c2".toList, ImageRepo := "repo1".toList, ImageTag := "tag1".toList }] ∧
    RootGo.getRunningContainers
        (RootGo.getContainers
          [{ Repo := "repo1".toList, Tag := "tag1".toList, ID := "abc123".toList }] twoFormats)
        { Repo := "repo1".toList, Tag := "tag1".toList, ID := "abc123".toList } =
      [{ ID := "c1".toList, ImageRepo := "repo1".toList, ImageTag := "tag1".toList }] := by
  refine ⟨by decide, by decide, by decide⟩

/-- C9, amended. Each format is parsed by its own entry point. For every image
snapshot, of the two lines `c1|repo1:tag1` and `c2 repo1:tag1` the parser of
`cmd/root.go` (`getContainers`) yields exactly `c1` and skips the other line,
the parser of `main.go` (`getAllContainers`) yields exactly `c2` and skips the
other line, both with `(ImageRepo, ImageTag) = ("repo1", "tag1")`; so the
dependents found for an image `repo1:tag1` are `c1` in `cmd/root.go` and `c2`
in `main.go`. -/
theorem C9_each_parser_one_format {W : Type} (allImages : List DockerImage) (imageID : Str)
    (sh : Shell W) (w : W) :
    RootGo.getContainers allImages twoFormats =
        [{ ID := "c1".toList, ImageRepo := "repo1".toList, ImageTag := "tag1".toList }] ∧
      MainGo.getAllContainers allImages twoFormats =
        [{ ID := "c2".toList, ImageRepo := "repo1".toList, ImageTag := "tag1".toList }] ∧
      RootGo.getRunningContainers (RootGo.getContainers allImages twoFormats)
          { Repo := "repo1".toList, Tag := "tag1".toList, ID := imageID } =
        [{ ID := "c1".toList, ImageRepo := "repo1".toList, ImageTag := "tag1".toList }] ∧
      commands (RootGo.removeContainers sh
          { Repo := "repo1".toList, Tag := "tag1".toList, ID := imageID }
          (RootGo.getContainers allImages twoFormats) w).1 = ["docker rm c1".toList] ∧
      commands (MainGo.stopContainers sh
          { Repo := "repo1".toList, Tag := "tag1".toList, ID := imageID }
          (MainGo.getAllContainers allImages twoFormats) w).1 = ["docker stop c2".toList] ∧
      commands (MainGo.removeContainers sh
          { Repo := "repo1".toList, Tag := "tag1".toList, ID := imageID }
          (MainGo.getAllContainers allImages twoFormats) w).1 = ["docker rm c2".toList] := by
  have hroot : RootGo.getContainers allImages twoFormats =
      [{ ID := "c1".toList, ImageRepo := "repo1".toList, ImageTag := "tag1".toList }] := by rfl
  have hmain : MainGo.getAllContainers allImages twoFormats =
      [{ ID := "c2".toList, ImageRepo := "repo1".toList, ImageTag := "tag1".toList }] := by rfl
  rw [hroot, hmain]
  refine ⟨rfl, rfl, by rfl, ?_, by rfl, by rfl⟩
  rw [commands_removeContainers]
  rfl

/-! ## C10: dependents are selected by `(Repo, Tag)` only -/

theorem usesImage_congr (A B : DockerImage) (hrepo : A.Repo = B.Repo) (htag : A.Tag = B.Tag) :
    usesImage A = usesImage B := by
  funext c
  unfold usesImage
  rw [hrepo, htag]

theorem mem_dependents (image : DockerImage) (c : DockerContainer)
    (cs : List DockerContainer) (hc : c ∈ cs) (hrepo : c.ImageRepo = image.Repo)
    (htag : c.ImageTag = image.Tag) : c ∈ dependents image cs := by
  unfold dependents
  exact List.mem_filter.mpr ⟨hc, by simp [hrepo, htag]⟩

/-- C10. Two images `A` and `B` with the same `Repo` and the same `Tag` have the
same running containers (`getRunningContainers`) and `removeContainers` does
the same for both, whatever their IDs. Hence, when an argument resolves to `A`
and a container `c` was recorded with `B`'s `(Repo, Tag)`: if `c` is in the
running snapshot and `stopRunningContainers` is set, `docker stop <c.ID>` is
run for that argument; and if `c` is in the all-containers snapshot and the
teardown is not held back by the safety gate, `docker rm <c.ID>` is run. -/
theorem C10_dependents_by_repo_and_tag {W : Type} (sh : Shell W) (A B : DockerImage)
    (hrepo : A.Repo = B.Repo) (htag : A.Tag = B.Tag) :
    (∀ running : List DockerContainer,
      RootGo.getRunningContainers running A = RootGo.getRunningContainers running B) ∧
    (∀ (all : List DockerContainer) (w : W),
      RootGo.removeContainers sh A all w = RootGo.removeContainers sh B all w) ∧
    (∀ (v : RootGo.Vars) (arg : Str) (c : DockerContainer) (w : W),
      RootGo.getImage v.allImages (RootGo.parseArg arg).1.imageRepo
        (RootGo.parseArg arg).1.imageTag (RootGo.parseArg arg).1.imageID = .ok A →
      c.ImageRepo = B.Repo → c.ImageTag = B.Tag →
      (c ∈ v.runningContainers → v.stopRunningContainers = true →
        "docker stop ".toList ++ c.ID ∈ commands (RootGo.processArg v sh arg w).1) ∧
      (c ∈ v.allContainers →
        (v.stopRunningContainers = true ∨
          RootGo.getRunningContainers v.runningContainers A = []) →
        "docker rm ".toList ++ c.ID ∈ commands (RootGo.processArg v sh arg w).1)) := by
  have hu := usesImage_congr A B hrepo htag
  refine ⟨?_, ?_, ?_⟩
  · intro running
    unfold RootGo.getRunningContainers
    rw [hu]
  · intro all
    induction all with
    | nil => intro w; rfl
    | cons c cs ih =>
      intro w
      unfold RootGo.removeContainers
      rw [hu]
      by_cases hc : usesImage B c = true
      · simp only [hc, if_true, ih]
      · simp only [hc, ih]
  · intro v arg c w hres hcr hct
    have hcA : c.ImageRepo = A.Repo := hcr.trans hrepo.symm
    have htA : c.ImageTag = A.Tag := hct.trans htag.symm
    have hcmd : commands (RootGo.processArg v sh arg w).1 = teardownCommands v A := by
      rw [commands_processArg]
      unfold argCommands
      simp only [hres]
    rw [hcmd]
    constructor
    · intro hmem hstop
      unfold teardownCommands
      rw [if_neg (by simp [hstop])]
      have : stopCmd c ∈ (dependents A v.runningContainers).map stopCmd :=
        List.mem_map_of_mem _ (mem_dependents A c _ hmem hcA htA)
      exact List.mem_append_left _ (List.mem_append_left _ this)
    · intro hmem hgo
      have hgate : ¬ (v.stopRunningContainers = false ∧
          dependents A v.runningContainers ≠ []) := by
        rintro ⟨hs, hd⟩
        rcases hgo with h | h
        · rw [hs] at h
          exact Bool.false_ne_true h
        · rw [getRunningContainers_eq] at h
          exact hd h
      unfold teardownCommands
      rw [if_neg hgate]
      have : rmCmd c ∈ (dependents A v.allContainers).map rmCmd :=
        List.mem_map_of_mem _ (mem_dependents A c _ hmem hcA htA)
      exact List.mem_append_left _ (List.mem_append_right _ this)

/-- C10 at a concrete input: two untagged images; the container `c9` was
created from `bbb222` and is listed under that ID; tearing down `aaa111` by its
ID stops and removes `c9`. -/
theorem C10_dependents_by_repo_and_tag_witness :
    RootGo.getContainers untaggedImages "c9|bbb222\n".toList =
        [{ ID := "c9".toList, ImageRepo := "<none>".toList, ImageTag := "<none>".toList }] ∧
      "docker stop c9".toList ∈
        commands (RootGo.processArg untaggedVars quietShell "aaa111".toList ()).1 ∧
      "docker rm c9".toList ∈
        commands (RootGo.processArg untaggedVars quietShell "aaa111".toList ()).1 ∧
      commands (RootGo.processArg untaggedVars quietShell "aaa111".toList ()).1 =
        ["docker stop c9".toList, "docker rm c9".toList, "docker rmi aaa111".toList] :=
  have h := (C10_dependents_by_repo_and_tag quietShell
    { Repo := "<none>".toList, Tag := "<none>".toList, ID := "aaa111".toList }
    { Repo := "<none>".toList, Tag := "<none>".toList, ID := "bbb222".toList } rfl rfl).2.2
    untaggedVars "aaa111".toList
    { ID := "c9".toList, ImageRepo := "<none>".toList, ImageTag := "<none>".toList } ()
    (by rfl) rfl rfl
  ⟨by decide, h.1 (by decide) rfl, h.2 (by decide) (Or.inl rfl), by decide⟩
